import Mathlib

/-!
# Verification of the sqlx-repository query construction core

A shallow embedding, in Lean 4, of the dynamic SQL construction and
pagination code of the sqlx-repository crate:

* `search.rs` : the types SearchParams, SortOrder, RecordScope,
  SearchResult and the pagination arithmetic of SearchResult::new,
  has_next_page and has_previous_page;
* `repository.rs` : the condition / bound-value assembly of
  Repository::search and Repository::count, the statement texts of
  delete and restore, and the restore configuration guard.

Machine integers are modelled as Nat (u32) and Int (i32 / i64); u32
overflow is modelled with an explicit `% 2 ^ 32` where the Rust code
can overflow in release mode, and the saturating `as u32` cast of a
float with an explicit saturation function.  The Rust HashMap holding
the field filters is modelled by the list of key-value pairs in the
order in which iterating the map yields them.
-/

namespace SqlxRepository

/-- Sort order for query results (search.rs, `SortOrder`). -/
inductive SortOrder where
  | Asc
  | Desc
deriving DecidableEq

/-- Record scope for handling soft-deleted records (search.rs, `RecordScope`). -/
inductive RecordScope where
  | Active
  | Deleted
  | All
deriving DecidableEq

/-- Parameters for searching and filtering (search.rs, `SearchParams`).
The Rust field `filters` has type HashMap<String, String>; iterating a
given map value yields its entries in some fixed but unspecified order,
and the `filters` list here is exactly that iteration sequence.  `page`
and `per_page` are u32 values, modelled as Nat. -/
structure SearchParams where
  query : Option String
  filters : List (String × String)
  page : Nat
  per_page : Nat
  sort_by : Option String
  sort_order : SortOrder
  scope : RecordScope

/-- The entity metadata supplied by the derive macro: the static trait
methods table_name, soft_delete_enabled, searchable_fields and
filterable_fields of `Repository` (repository.rs). -/
structure EntityMeta where
  table_name : String
  soft_delete_enabled : Bool
  searchable_fields : List String
  filterable_fields : List String

/-- The mutable local state of Repository::search / Repository::count
while assembling the WHERE clause: the Rust locals `conditions`,
`bind_count` and `bind_values` (repository.rs lines 98-100). -/
structure BuildState where
  conditions : List String
  bind_count : Nat
  bind_values : List String
deriving DecidableEq

/-- Soft delete scope handling, repository.rs lines 102-109 (and the
identical lines 229-236 inside `count`): pushes the scope condition,
touching neither `bind_count` nor `bind_values`. -/
def scopeStep (m : EntityMeta) (p : SearchParams) (st : BuildState) : BuildState :=
  if m.soft_delete_enabled then
    match p.scope with
    | RecordScope.Active => { st with conditions := st.conditions ++ ["deleted_at IS NULL"] }
    | RecordScope.Deleted => { st with conditions := st.conditions ++ ["deleted_at IS NOT NULL"] }
    | RecordScope.All => st
  else st

/-- Rust `str::trim`: the string with leading and trailing whitespace
removed.  (Rust trims Unicode whitespace; `Char.isWhitespace` covers the
ASCII whitespace relevant here.)  Written over the character list so
that it evaluates by kernel reduction. -/
def rustTrim (s : String) : String :=
  String.mk (((s.data.dropWhile Char.isWhitespace).reverse.dropWhile Char.isWhitespace).reverse)

/-- Text search handling inside Repository::search, repository.rs lines
111-123: when a query is present, the searchable field list is non-empty
and the trimmed query is non-empty, increment `bind_count`, push the
parenthesized ILIKE disjunction (all fields using the new placeholder)
and bind the pattern "%query%". -/
def textStep (m : EntityMeta) (p : SearchParams) (st : BuildState) : BuildState :=
  match p.query with
  | some query =>
    if !m.searchable_fields.isEmpty && !(rustTrim query).isEmpty then
      let bind_count := st.bind_count + 1
      let search_conditions := String.intercalate " OR "
        (m.searchable_fields.map (fun field => field ++ " ILIKE $" ++ toString bind_count))
      { conditions := st.conditions ++ ["(" ++ search_conditions ++ ")"],
        bind_count := bind_count,
        bind_values := st.bind_values ++ ["%" ++ query ++ "%"] }
    else st
  | none => st

/-- One iteration of the field filter loop of Repository::search,
repository.rs lines 126-132 (and the identical loop of `count`, lines
253-259): a pair whose field is contained in `filterable_fields` emits
one equality condition with a fresh placeholder and appends one bound
value; any other pair leaves the state unchanged. -/
def filterStep (m : EntityMeta) (st : BuildState) (fv : String × String) : BuildState :=
  if m.filterable_fields.contains fv.1 then
    { conditions := st.conditions ++ [fv.1 ++ " = $" ++ toString (st.bind_count + 1)],
      bind_count := st.bind_count + 1,
      bind_values := st.bind_values ++ [fv.2] }
  else st

/-- The condition / bound-value assembly of Repository::search,
repository.rs lines 98-132: scope condition, then text search, then the
filter loop, starting from empty locals. -/
def searchBuild (m : EntityMeta) (p : SearchParams) : BuildState :=
  p.filters.foldl (filterStep m)
    (textStep m p (scopeStep m p { conditions := [], bind_count := 0, bind_values := [] }))

/-- The WHERE clause assembly of repository.rs lines 134-138 (and
261-265): empty condition list gives the empty string, otherwise
" WHERE " followed by the conditions joined with " AND ". -/
def whereClause (conditions : List String) : String :=
  if conditions.isEmpty then "" else " WHERE " ++ String.intercalate " AND " conditions

/-- The count statement built inside Repository::search, repository.rs
lines 141-145. -/
def searchCountQuery (m : EntityMeta) (p : SearchParams) : String :=
  "SELECT COUNT(*) FROM " ++ m.table_name ++ whereClause (searchBuild m p).conditions

/-- The ASC / DESC keyword for a sort order, repository.rs lines 149-152. -/
def sortOrderSql : SortOrder → String
  | SortOrder.Asc => "ASC"
  | SortOrder.Desc => "DESC"

/-- The main paginated select statement of Repository::search,
repository.rs lines 147-163.  The Rust offset computation
`params.page * params.per_page` is a u32 multiplication, hence the
explicit `% 2 ^ 32` (release-mode wrapping; debug builds panic on
overflow). -/
def searchMainQuery (m : EntityMeta) (p : SearchParams) : String :=
  let sort_field := p.sort_by.getD "id"
  let offset := p.page * p.per_page % 2 ^ 32
  "SELECT * FROM " ++ m.table_name ++ whereClause (searchBuild m p).conditions ++
    " ORDER BY " ++ sort_field ++ " " ++ sortOrderSql p.sort_order ++
    " LIMIT " ++ toString p.per_page ++ " OFFSET " ++ toString offset

/-- Text search handling inside Repository::count, repository.rs lines
238-249: identical to the search version except that the placeholder is
the hard-coded token $1 and `bind_count` does not exist yet at this
point of the Rust function. -/
def countTextStep (m : EntityMeta) (p : SearchParams) (st : BuildState) : BuildState :=
  match p.query with
  | some query =>
    if !m.searchable_fields.isEmpty && !(rustTrim query).isEmpty then
      let search_conditions := String.intercalate " OR "
        (m.searchable_fields.map (fun field => field ++ " ILIKE $1"))
      { conditions := st.conditions ++ ["(" ++ search_conditions ++ ")"],
        bind_count := st.bind_count,
        bind_values := st.bind_values ++ ["%" ++ query ++ "%"] }
    else st
  | none => st

/-- The condition / bound-value assembly of Repository::count,
repository.rs lines 226-259: scope and text handling as above, then
line 252 initializes bind_count to 0 when bind_values is empty and to 1
otherwise, and the same filter loop as search runs. -/
def countBuild (m : EntityMeta) (p : SearchParams) : BuildState :=
  let st := countTextStep m p (scopeStep m p { conditions := [], bind_count := 0, bind_values := [] })
  let st := { st with bind_count := if st.bind_values.isEmpty then 0 else 1 }
  p.filters.foldl (filterStep m) st

/-- The count statement built by Repository::count, repository.rs lines
267-271. -/
def countQuery (m : EntityMeta) (p : SearchParams) : String :=
  "SELECT COUNT(*) FROM " ++ m.table_name ++ whereClause (countBuild m p).conditions

/-- The exact integer ceiling of the rational a / b for b > 0, written
with Euclidean division (for positive b, `Int` division in Lean is floor
division, and the ceiling is the negated floor of the negation). -/
def ceilDivInt (a b : Int) : Int :=
  -(-a / b)

/-- The Rust cast `as u32` applied to an f64 holding the exact integer
z: the cast saturates, so negative values give 0 and values above the
u32 maximum give 2 ^ 32 - 1. -/
def u32sat (z : Int) : Nat :=
  if z < 0 then 0 else min z.toNat (2 ^ 32 - 1)

/-- total_pages as computed by SearchResult::new (search.rs lines
93-98).  The Rust code computes
total_count as f64, divides by per_page as f64, takes ceil and casts
with `as u32`.  For |total_count| < 2 ^ 53 the int-to-f64 conversions
are exact and, because the quotient of integers below 2 ^ 53 is never
rounded across an integer boundary by the correctly rounded IEEE
division, the float pipeline produces the exact rational ceiling; the
final cast saturates.  The model is therefore the exact ceiling plus
the saturating cast, and every theorem about it keeps total_count
below 2 ^ 53. -/
def newTotalPages (total_count : Int) (per_page : Nat) : Nat :=
  if 0 < per_page then u32sat (ceilDivInt total_count per_page) else 0

/-- Result container for paginated search queries (search.rs,
`SearchResult`).  total_count is an i64, page / per_page / total_pages
are u32 values. -/
structure SearchResult (T : Type) where
  items : List T
  total_count : Int
  page : Nat
  per_page : Nat
  total_pages : Nat

/-- SearchResult::new, search.rs lines 93-107. -/
def SearchResult.new {T : Type} (items : List T) (total_count : Int) (page per_page : Nat) :
    SearchResult T :=
  { items := items, total_count := total_count, page := page, per_page := per_page,
    total_pages := newTotalPages total_count per_page }

/-- SearchResult::has_next_page, search.rs lines 110-112: the u32
comparison page + 1 < total_pages; the addition wraps at 2 ^ 32 (in a
release build; a debug build panics on the overflow). -/
def SearchResult.hasNextPage {T : Type} (r : SearchResult T) : Bool :=
  (r.page + 1) % 2 ^ 32 < r.total_pages

/-- SearchResult::has_previous_page, search.rs lines 115-117. -/
def SearchResult.hasPreviousPage {T : Type} (r : SearchResult T) : Bool :=
  0 < r.page

/-- The error taxonomy of error.rs, `RepositoryError`, with each
payload reduced to the strings it carries. -/
inductive RepositoryError where
  | Database (msg : String)
  | NotFound (entity field value : String)
  | Validation (msg : String)
  | Conflict (msg : String)
  | Configuration (msg : String)
  | UnsupportedFeature (feature backend : String)
deriving DecidableEq

/-- The statement text built by Repository::delete, repository.rs lines
80-85: the soft delete UPDATE guarded by deleted_at IS NULL when soft
delete is enabled, the hard DELETE otherwise. -/
def deleteQuery (m : EntityMeta) : String :=
  if m.soft_delete_enabled then
    "UPDATE " ++ m.table_name ++
      " SET deleted_at = NOW(), updated_at = NOW() WHERE id = $1 AND deleted_at IS NULL"
  else
    "DELETE FROM " ++ m.table_name ++ " WHERE id = $1"

/-- Repository::restore, repository.rs lines 193-211: when soft delete
is disabled the function returns the configuration error before any
statement is built or executed; otherwise it produces the single
UPDATE ... RETURNING statement with the id as its one bound value,
executed with fetch_optional. -/
def restore (m : EntityMeta) (id : Int) : Except RepositoryError (String × List Int) :=
  if !m.soft_delete_enabled then
    Except.error (RepositoryError.Configuration "Soft delete not enabled")
  else
    Except.ok
      ("UPDATE " ++ m.table_name ++
        " SET deleted_at = NULL, updated_at = NOW() WHERE id = $1 RETURNING *", [id])

/-- A row of the entity table, for giving semantics to the restore and
delete statements: the primary key, the two timestamp columns the
statements touch, and the rest of the row abstracted into one value. -/
structure Row where
  id : Int
  deleted_at : Option Nat
  updated_at : Nat
  rest : String
deriving DecidableEq

/-- Semantics over an abstract table of the fixed statement
UPDATE t SET deleted_at = NULL, updated_at = NOW() WHERE id = $1
RETURNING *, run through fetch_optional as restore does: every row
whose id matches is updated, and the first updated row, if any, is
returned.  `now` stands for the NOW() timestamp. -/
def runRestoreUpdate (now : Nat) (table : List Row) (i : Int) : List Row × Option Row :=
  (table.map (fun r => if r.id = i then { r with deleted_at := none, updated_at := now } else r),
   (table.find? (fun r => r.id = i)).map
     (fun r => { r with deleted_at := none, updated_at := now }))

/-- Semantics over an abstract table of the soft delete statement
UPDATE t SET deleted_at = NOW(), updated_at = NOW() WHERE id = $1 AND
deleted_at IS NULL (repository.rs line 82), run through execute as
delete does: rows matching the id that are not yet deleted are stamped,
and the affected-row count is returned. -/
def runSoftDeleteUpdate (now : Nat) (table : List Row) (i : Int) : List Row × Nat :=
  (table.map (fun r =>
     if r.id = i ∧ r.deleted_at = none then
       { r with deleted_at := some now, updated_at := now } else r),
   (table.filter (fun r => r.id = i ∧ r.deleted_at = none)).length)

/-! ## The specification-side decomposition of the WHERE clause

The definitions below restate, in the words of the specification, the three
condition groups of section 4.2 of the specification; the claim
theorems compare the code-side `searchBuild` / `countBuild` against
them. -/

/-- Spec 4.2 step 1: the scope condition list — emitted only under
soft delete, ActiveOnly giving deleted_at IS NULL, DeletedOnly giving
deleted_at IS NOT NULL, All giving nothing. -/
def specScopeConds (m : EntityMeta) (p : SearchParams) : List String :=
  if m.soft_delete_enabled then
    match p.scope with
    | RecordScope.Active => ["deleted_at IS NULL"]
    | RecordScope.Deleted => ["deleted_at IS NOT NULL"]
    | RecordScope.All => []
  else []

/-- Whether spec 4.2 step 2 emits a text-search condition: the
searchable field list is non-empty and the query is present and
non-blank after trimming. -/
def specTextEmitted (m : EntityMeta) (p : SearchParams) : Bool :=
  match p.query with
  | some q => !m.searchable_fields.isEmpty && !(rustTrim q).isEmpty
  | none => false

/-- Spec 4.2 step 2: the text-search condition list — when emitted, the
parenthesized ILIKE disjunction over all searchable fields, every field
using the same placeholder $1 (the text condition is always the first
bound value of the statement, the scope condition consuming none). -/
def specTextConds (m : EntityMeta) (p : SearchParams) : List String :=
  if specTextEmitted m p then
    ["(" ++ String.intercalate " OR "
        (m.searchable_fields.map (fun f => f ++ " ILIKE $1")) ++ ")"]
  else []

/-- Spec 4.2 step 2: the bound value of the text-search condition,
"%" ++ query ++ "%", bound exactly once when the condition is emitted. -/
def specTextBinds (m : EntityMeta) (p : SearchParams) : List String :=
  match p.query with
  | some q => if !m.searchable_fields.isEmpty && !(rustTrim q).isEmpty
      then ["%" ++ q ++ "%"] else []
  | none => []

/-- Spec 4.2 step 3: the field-filter condition list, given the number
k0 of placeholders already consumed — for each pair in encounter order,
a member of filterable_fields emits one equality condition consuming
one new placeholder, any other pair is silently dropped. -/
def specFilterConds (m : EntityMeta) : Nat → List (String × String) → List String
  | _, [] => []
  | k0, fv :: rest =>
    if m.filterable_fields.contains fv.1 then
      (fv.1 ++ " = $" ++ toString (k0 + 1)) :: specFilterConds m (k0 + 1) rest
    else specFilterConds m k0 rest

/-- Spec 4.2 step 3: the bound values of the field filters — one value
per kept pair, in encounter order. -/
def specFilterBinds (m : EntityMeta) (l : List (String × String)) : List String :=
  (l.filter (fun fv => m.filterable_fields.contains fv.1)).map (fun fv => fv.2)

/-- The full condition list in the strict order of the specification: scope, then
text search, then field filters, the filter placeholders continuing
after the text bind. -/
def specConds (m : EntityMeta) (p : SearchParams) : List String :=
  specScopeConds m p ++ specTextConds m p ++
    specFilterConds m (specTextBinds m p).length p.filters

/-! ## Helper lemmas -/

theorem ilike_append (f : String) (n : Nat) :
    f ++ " ILIKE $" ++ toString n = f ++ (" ILIKE $" ++ toString n) :=
  String.append_assoc f " ILIKE $" (toString n)

theorem scopeStep_eq (m : EntityMeta) (p : SearchParams) (st : BuildState) :
    scopeStep m p st = { st with conditions := st.conditions ++ specScopeConds m p } := by
  unfold scopeStep specScopeConds
  by_cases h : m.soft_delete_enabled
  · cases p.scope <;> simp [h]
  · simp [h]

theorem textStep_zero (m : EntityMeta) (p : SearchParams) (conds : List String) :
    textStep m p { conditions := conds, bind_count := 0, bind_values := [] } =
      { conditions := conds ++ specTextConds m p,
        bind_count := (specTextBinds m p).length,
        bind_values := specTextBinds m p } := by
  unfold textStep specTextConds specTextBinds specTextEmitted
  cases hq : p.query with
  | none => simp
  | some q =>
    by_cases h : (!m.searchable_fields.isEmpty && !(rustTrim q).isEmpty) = true
    · have hmap : (fun field => field ++ " ILIKE $" ++ toString (0 + 1 : Nat)) =
          (fun f : String => f ++ " ILIKE $1") := by
        funext f
        rw [ilike_append]
        rfl
      simp only [h, if_true]
      simp [hmap]
    · simp [h]

theorem countTextStep_zero (m : EntityMeta) (p : SearchParams) (conds : List String) :
    countTextStep m p { conditions := conds, bind_count := 0, bind_values := [] } =
      { conditions := conds ++ specTextConds m p,
        bind_count := 0,
        bind_values := specTextBinds m p } := by
  unfold countTextStep specTextConds specTextBinds specTextEmitted
  cases hq : p.query with
  | none => simp
  | some q =>
    by_cases h : (!m.searchable_fields.isEmpty && !(rustTrim q).isEmpty) = true
    · simp [h]
    · simp [h]

theorem filterStep_foldl (m : EntityMeta) :
    ∀ (l : List (String × String)) (st : BuildState),
      l.foldl (filterStep m) st =
        { conditions := st.conditions ++ specFilterConds m st.bind_count l,
          bind_count := st.bind_count + (specFilterBinds m l).length,
          bind_values := st.bind_values ++ specFilterBinds m l } := by
  intro l
  induction l with
  | nil =>
    intro st
    simp [specFilterConds, specFilterBinds]
  | cons fv rest ih =>
    intro st
    rw [List.foldl_cons]
    by_cases h : m.filterable_fields.contains fv.1 = true
    · have hstep : filterStep m st fv =
          { conditions := st.conditions ++ [fv.1 ++ " = $" ++ toString (st.bind_count + 1)],
            bind_count := st.bind_count + 1,
            bind_values := st.bind_values ++ [fv.2] } := by
        unfold filterStep
        rw [if_pos h]
      have hsc : specFilterConds m st.bind_count (fv :: rest) =
          (fv.1 ++ " = $" ++ toString (st.bind_count + 1)) ::
            specFilterConds m (st.bind_count + 1) rest := by
        conv_lhs => rw [specFilterConds]
        rw [if_pos h]
      have hsb : specFilterBinds m (fv :: rest) = fv.2 :: specFilterBinds m rest := by
        have hmem : fv.1 ∈ m.filterable_fields := by simpa using h
        simp [specFilterBinds, List.filter_cons, hmem]
      rw [hstep, ih, hsc, hsb]
      simp only [BuildState.mk.injEq, List.length_cons]
      refine ⟨?_, ?_, ?_⟩
      · simp [List.append_assoc]
      · omega
      · simp [List.append_assoc]
    · have hstep : filterStep m st fv = st := by
        unfold filterStep
        rw [if_neg h]
      have hsc : specFilterConds m st.bind_count (fv :: rest) =
          specFilterConds m st.bind_count rest := by
        conv_lhs => rw [specFilterConds]
        rw [if_neg h]
      have hsb : specFilterBinds m (fv :: rest) = specFilterBinds m rest := by
        have hmem : fv.1 ∉ m.filterable_fields := by simpa using h
        simp [specFilterBinds, List.filter_cons, hmem]
      rw [hstep, ih, hsc, hsb]

theorem searchBuild_eq (m : EntityMeta) (p : SearchParams) :
    searchBuild m p =
      { conditions := specConds m p,
        bind_count := (specTextBinds m p).length + (specFilterBinds m p.filters).length,
        bind_values := specTextBinds m p ++ specFilterBinds m p.filters } := by
  unfold searchBuild
  rw [scopeStep_eq, textStep_zero, filterStep_foldl]
  simp [specConds, List.append_assoc]

theorem specTextBinds_length (m : EntityMeta) (p : SearchParams) :
    (if (specTextBinds m p).isEmpty then 0 else 1) = (specTextBinds m p).length := by
  unfold specTextBinds
  cases p.query with
  | none => simp
  | some q =>
    by_cases h : (!m.searchable_fields.isEmpty && !(rustTrim q).isEmpty) = true
    · simp [h]
    · simp [h]

theorem countBuild_eq (m : EntityMeta) (p : SearchParams) :
    countBuild m p =
      { conditions := specConds m p,
        bind_count := (specTextBinds m p).length + (specFilterBinds m p.filters).length,
        bind_values := specTextBinds m p ++ specFilterBinds m p.filters } := by
  unfold countBuild
  rw [scopeStep_eq, countTextStep_zero]
  simp only [specTextBinds_length]
  rw [filterStep_foldl]
  simp [specConds, List.append_assoc]

/-! ## Claim theorems -/

/-- C1: for every entity metadata and every SearchParams, the WHERE
clause of the search statements is assembled in strict order — scope
condition first (emitted only under soft delete, consuming no bound
value), then the text-search condition, then the field-filter
conditions — joined with " AND ", and an empty condition list emits no
WHERE clause at all; both the count statement and the main statement
built by search carry this clause. -/
theorem search_where_clause_assembly (m : EntityMeta) (p : SearchParams) :
    (searchBuild m p).conditions = specConds m p ∧
    (searchBuild m p).bind_values = specTextBinds m p ++ specFilterBinds m p.filters ∧
    searchCountQuery m p = "SELECT COUNT(*) FROM " ++ m.table_name ++
      (if specConds m p = [] then ""
       else " WHERE " ++ String.intercalate " AND " (specConds m p)) ∧
    (∃ tail, searchMainQuery m p = "SELECT * FROM " ++ m.table_name ++
      (if specConds m p = [] then ""
       else " WHERE " ++ String.intercalate " AND " (specConds m p)) ++ tail) := by
  have h := searchBuild_eq m p
  have hwc : whereClause (searchBuild m p).conditions =
      (if specConds m p = [] then ""
       else " WHERE " ++ String.intercalate " AND " (specConds m p)) := by
    rw [h]
    unfold whereClause
    cases hc : specConds m p <;> simp
  refine ⟨by rw [h], by rw [h], ?_, ?_⟩
  · unfold searchCountQuery
    rw [hwc]
  · refine ⟨" ORDER BY " ++ p.sort_by.getD "id" ++ " " ++ sortOrderSql p.sort_order ++
      " LIMIT " ++ toString p.per_page ++
      " OFFSET " ++ toString (p.page * p.per_page % 2 ^ 32), ?_⟩
    unfold searchMainQuery
    rw [hwc]
    simp [String.append_assoc]

theorem string_isEmpty_false {s : String} (h : s ≠ "") : s.isEmpty = false := by
  cases hb : s.isEmpty
  · rfl
  · exact absurd ((String.isEmpty_iff s).mp hb) h

theorem list_isEmpty_false {α : Type} {l : List α} (h : l ≠ []) : l.isEmpty = false :=
  List.isEmpty_eq_false.mpr h

/-- The text condition and its bind when step 2 fires. -/
theorem specText_emitted (m : EntityMeta) (p : SearchParams) (q : String)
    (hq : p.query = some q) (hf : m.searchable_fields ≠ []) (ht : rustTrim q ≠ "") :
    specTextConds m p =
      ["(" ++ String.intercalate " OR "
        (m.searchable_fields.map (fun f => f ++ " ILIKE $1")) ++ ")"] ∧
    specTextBinds m p = ["%" ++ q ++ "%"] := by
  have hb : (!m.searchable_fields.isEmpty && !(rustTrim q).isEmpty) = true := by
    rw [string_isEmpty_false ht, list_isEmpty_false hf]
    rfl
  constructor
  · simp [specTextConds, specTextEmitted, hq, hb]
  · simp [specTextBinds, hq, hb]

/-- No text condition and no text bind when step 2 does not fire. -/
theorem specText_not_emitted (m : EntityMeta) (p : SearchParams)
    (h : p.query = none ∨ m.searchable_fields = [] ∨ ∃ q, p.query = some q ∧ rustTrim q = "") :
    specTextConds m p = [] ∧ specTextBinds m p = [] := by
  have hb : specTextEmitted m p = false := by
    unfold specTextEmitted
    rcases h with h | h | ⟨q, hq, ht⟩
    · rw [h]
    · cases hq : p.query with
      | none => rfl
      | some q => simp [h]
    · have hemp : (rustTrim q).isEmpty = true := (String.isEmpty_iff (rustTrim q)).mpr ht
      simp [hq, hemp]
  constructor
  · simp [specTextConds, hb]
  · unfold specTextEmitted at hb
    cases hq : p.query with
    | none => simp [specTextBinds, hq]
    | some q =>
      rw [hq] at hb
      simp only [] at hb
      simp [specTextBinds, hq, hb]

/-- C3: for every entity metadata and every SearchParams (the filters
map iterated in the same order in both calls), Repository::count builds
exactly the count SQL text and bound-value sequence that
Repository::search builds for its count statement; in both, the
text-search placeholder is $1 when present and filter placeholders
start after it. -/
theorem count_matches_search_count (m : EntityMeta) (p : SearchParams) :
    countQuery m p = searchCountQuery m p ∧
    (countBuild m p).conditions = (searchBuild m p).conditions ∧
    (countBuild m p).bind_values = (searchBuild m p).bind_values := by
  have h1 := searchBuild_eq m p
  have h2 := countBuild_eq m p
  refine ⟨?_, by rw [h1, h2], by rw [h1, h2]⟩
  unfold countQuery searchCountQuery
  rw [h1, h2]

/-- C4: a text-search condition is emitted iff searchable_fields is
non-empty and the query is present and non-blank after trimming; when
emitted it binds exactly one value "%" ++ query ++ "%" (the first bound
value of the statement) and contributes the parenthesized disjunction
of field ILIKE $1 over all searchable fields in order, every field
reusing the same single placeholder; a blank or whitespace-only query,
an absent query, or an empty searchable field list never emits the
condition or its bind. -/
theorem text_search_condition (m : EntityMeta) (p : SearchParams) :
    (∀ q, p.query = some q → m.searchable_fields ≠ [] → rustTrim q ≠ "" →
      (searchBuild m p).conditions =
        specScopeConds m p ++
          ("(" ++ String.intercalate " OR "
            (m.searchable_fields.map (fun f => f ++ " ILIKE $1")) ++ ")") ::
          specFilterConds m 1 p.filters ∧
      (searchBuild m p).bind_values = ("%" ++ q ++ "%") :: specFilterBinds m p.filters) ∧
    (∀ q, p.query = some q → rustTrim q = "" →
      (searchBuild m p).conditions = specScopeConds m p ++ specFilterConds m 0 p.filters ∧
      (searchBuild m p).bind_values = specFilterBinds m p.filters) ∧
    (m.searchable_fields = [] →
      (searchBuild m p).conditions = specScopeConds m p ++ specFilterConds m 0 p.filters ∧
      (searchBuild m p).bind_values = specFilterBinds m p.filters) ∧
    (p.query = none →
      (searchBuild m p).conditions = specScopeConds m p ++ specFilterConds m 0 p.filters ∧
      (searchBuild m p).bind_values = specFilterBinds m p.filters) := by
  have h := searchBuild_eq m p
  refine ⟨?_, ?_, ?_, ?_⟩
  · intro q hq hf ht
    obtain ⟨hc, hbnd⟩ := specText_emitted m p q hq hf ht
    rw [h]
    unfold specConds
    rw [hc, hbnd]
    exact ⟨by simp, rfl⟩
  · intro q hq ht
    obtain ⟨hc, hbnd⟩ := specText_not_emitted m p (Or.inr (Or.inr ⟨q, hq, ht⟩))
    rw [h]
    unfold specConds
    rw [hc, hbnd]
    exact ⟨by simp, rfl⟩
  · intro hf
    obtain ⟨hc, hbnd⟩ := specText_not_emitted m p (Or.inr (Or.inl hf))
    rw [h]
    unfold specConds
    rw [hc, hbnd]
    exact ⟨by simp, rfl⟩
  · intro hq
    obtain ⟨hc, hbnd⟩ := specText_not_emitted m p (Or.inl hq)
    rw [h]
    unfold specConds
    rw [hc, hbnd]
    exact ⟨by simp, rfl⟩

/-- The filter conditions are exactly the kept entries, in encounter
order, each paired with the next placeholder index: entry number i
(among the kept ones) uses placeholder k0 + i + 1. -/
theorem specFilterConds_zip (m : EntityMeta) :
    ∀ (l : List (String × String)) (k0 : Nat),
      specFilterConds m k0 l =
        ((l.filter (fun fv => m.filterable_fields.contains fv.1)).zip
            (List.range (l.filter (fun fv => m.filterable_fields.contains fv.1)).length)).map
          (fun x => x.1.1 ++ " = $" ++ toString (k0 + x.2 + 1)) := by
  intro l
  induction l with
  | nil => intro k0; rfl
  | cons fv rest ih =>
    intro k0
    by_cases h : m.filterable_fields.contains fv.1 = true
    · have hmem : fv.1 ∈ m.filterable_fields := by simpa using h
      have hf : (fv :: rest).filter (fun fv => m.filterable_fields.contains fv.1) =
          fv :: rest.filter (fun fv => m.filterable_fields.contains fv.1) := by
        simp [List.filter_cons, hmem]
      conv_lhs => rw [specFilterConds]
      rw [if_pos h, ih (k0 + 1), hf]
      rw [List.length_cons, List.range_succ_eq_map]
      rw [List.zip_cons_cons, List.map_cons]
      rw [List.zip_map_right, List.map_map]
      refine congrArg₂ _ rfl ?_
      refine List.map_congr_left ?_
      intro x _
      have : k0 + 1 + x.2 + 1 = k0 + (x.2 + 1) + 1 := by omega
      simp [Function.comp, this]
    · have hmem : fv.1 ∉ m.filterable_fields := by simpa using h
      have hf : (fv :: rest).filter (fun fv => m.filterable_fields.contains fv.1) =
          rest.filter (fun fv => m.filterable_fields.contains fv.1) := by
        simp [List.filter_cons, hmem]
      conv_lhs => rw [specFilterConds]
      rw [if_neg h, ih k0, hf]

/-- C5: a filter entry produces an equality condition exactly when its
field is a member of filterable_fields; entries with non-member fields
are silently dropped (the loop is total, there is no error path); the
kept entries appear in encounter order, entry i consuming the single
fresh placeholder numbered (text binds) + i + 1 and appending its one
value to the bound values; with no matching filterable field and no
text condition the statement is unconditioned besides scope. -/
theorem filter_conditions_membership (m : EntityMeta) (p : SearchParams) :
    (searchBuild m p).conditions =
      specScopeConds m p ++ specTextConds m p ++
        ((p.filters.filter (fun fv => m.filterable_fields.contains fv.1)).zip
            (List.range (p.filters.filter (fun fv => m.filterable_fields.contains fv.1)).length)).map
          (fun x => x.1.1 ++ " = $" ++ toString ((specTextBinds m p).length + x.2 + 1)) ∧
    (searchBuild m p).bind_values =
      specTextBinds m p ++
        (p.filters.filter (fun fv => m.filterable_fields.contains fv.1)).map (fun fv => fv.2) ∧
    ((∀ fv ∈ p.filters, m.filterable_fields.contains fv.1 = false) → p.query = none →
      (searchBuild m p).conditions = specScopeConds m p) := by
  have h := searchBuild_eq m p
  refine ⟨?_, ?_, ?_⟩
  · rw [h]
    unfold specConds
    rw [specFilterConds_zip]
  · rw [h]
    rfl
  · intro hnone hq
    have hfe : p.filters.filter (fun fv => m.filterable_fields.contains fv.1) = [] := by
      refine List.filter_eq_nil_iff.mpr ?_
      intro fv hfv
      simpa using hnone fv hfv
    have htext := specText_not_emitted m p (Or.inl hq)
    rw [h]
    unfold specConds
    rw [specFilterConds_zip, hfe, htext.1]
    simp

/-- `ceilDivInt a b` is the exact ceiling of a / b: the unique integer
c with b * (c - 1) < a ≤ b * c when b > 0. -/
theorem ceilDivInt_char (a b : Int) (hb : 0 < b) :
    b * (ceilDivInt a b - 1) < a ∧ a ≤ b * ceilDivInt a b := by
  have hb' : b ≠ 0 := by omega
  have h1 := Int.ediv_add_emod (-a) b
  have h2 := Int.emod_nonneg (-a) hb'
  have h3 := Int.emod_lt_of_pos (-a) hb
  unfold ceilDivInt
  constructor
  · nlinarith [h1, h2, h3]
  · nlinarith [h1, h2, h3]

/-- In the exact range, newTotalPages is the exact rational ceiling:
no saturation happens when the ceiling fits below 2 ^ 32. -/
theorem newTotalPages_eq (total_count : Int) (per_page : Nat) (h0 : 0 ≤ total_count)
    (hpp : 0 < per_page) (hfit : ceilDivInt total_count per_page ≤ 2 ^ 32 - 1) :
    ((newTotalPages total_count per_page : Nat) : Int) = ceilDivInt total_count per_page := by
  have hppz : (0 : Int) < per_page := by exact_mod_cast hpp
  have hchar := ceilDivInt_char total_count per_page hppz
  set c := ceilDivInt total_count (per_page : Int) with hc
  have hc0 : 0 ≤ c := by
    by_contra hneg
    push_neg at hneg
    have h1 : (per_page : Int) * c ≤ (per_page : Int) * (-1) :=
      mul_le_mul_of_nonneg_left (by omega) (by omega)
    linarith [hchar.2]
  have htn : c.toNat ≤ 2 ^ 32 - 1 := by
    rw [Int.toNat_le]
    calc c ≤ 2 ^ 32 - 1 := hfit
    _ = ((2 ^ 32 - 1 : Nat) : Int) := by norm_num
  unfold newTotalPages u32sat
  rw [if_pos hpp, if_neg (not_lt.mpr hc0), min_eq_left htn]
  exact Int.toNat_of_nonneg hc0

/-- C2 counterexample: at total_count 2 ^ 32 = 4294967296 and per_page
1 the Rust `as u32` cast saturates, so total_pages is 4294967295 and
not the ceiling 4294967296 the claim demands for every 64-bit
total_count. -/
theorem total_pages_ceil_cex :
    ((SearchResult.new ([] : List Unit) 4294967296 0 1).total_pages : Int) ≠
      ceilDivInt 4294967296 1 := by decide

/-- C2 (amended): SearchResult::new sets total_pages to the exact
ceiling of total_count / per_page whenever per_page > 0, total_count is
non-negative and small enough for the f64 pipeline to be exact
(total_count < 2 ^ 53) and the ceiling fits a u32 (no saturating cast);
and total_pages = 0 when per_page = 0. -/
theorem total_pages_eq_ceil {T : Type} (items : List T) (total_count : Int)
    (page per_page : Nat) (h0 : 0 ≤ total_count) (h53 : total_count < 2 ^ 53)
    (hfit : ceilDivInt total_count per_page ≤ 2 ^ 32 - 1) :
    (0 < per_page →
      (((SearchResult.new items total_count page per_page).total_pages : Nat) : Int) =
        ceilDivInt total_count per_page) ∧
    (per_page = 0 → (SearchResult.new items total_count page per_page).total_pages = 0) := by
  constructor
  · intro hpp
    exact newTotalPages_eq total_count per_page h0 hpp hfit
  · intro hz
    show newTotalPages total_count per_page = 0
    unfold newTotalPages
    rw [hz]
    rfl

/-- C2 witness: 25 items at 10 per page give ceiling 3. -/
theorem total_pages_eq_ceil_witness :
    (((SearchResult.new ([] : List Unit) 25 0 10).total_pages : Nat) : Int) =
      ceilDivInt 25 10 :=
  (total_pages_eq_ceil ([] : List Unit) 25 0 10 (by decide) (by decide) (by decide)).1
    (by decide)

/-- C7 counterexample: with total_count 2 ^ 32, per_page 1 and page
2 ^ 32 - 2 the saturated total_pages makes has_next_page false even
though (page + 1) * per_page < total_count, refuting the claimed
consistency for arbitrary 64-bit total_count. -/
theorem pagination_predicates_cex :
    (SearchResult.new ([] : List Unit) 4294967296 4294967294 1).hasNextPage = false ∧
    ((4294967294 : Int) + 1) * 1 < 4294967296 := by
  constructor
  · decide
  · decide

/-- C7 (amended): has_next_page is the u32 comparison page + 1 <
total_pages and has_previous_page is page > 0; when per_page > 0,
total_count is non-negative, in the f64-exact range and small enough
that total_pages does not saturate, and page + 1 does not overflow,
has_next_page is also equivalent to (page + 1) * per_page <
total_count; at the boundary (25 items, per_page 10, page 2) there is
no next page but there is a previous one. -/
theorem pagination_predicates_amended {T : Type} (items : List T) (total_count : Int)
    (page per_page : Nat) (h0 : 0 ≤ total_count) (h53 : total_count < 2 ^ 53)
    (hpp : 0 < per_page) (hsat : total_count ≤ (2 ^ 32 - 1) * (per_page : Int))
    (hpage : page + 1 < 2 ^ 32) :
    ((SearchResult.new items total_count page per_page).hasNextPage = true ↔
      page + 1 < (SearchResult.new items total_count page per_page).total_pages) ∧
    ((SearchResult.new items total_count page per_page).hasNextPage = true ↔
      ((page : Int) + 1) * per_page < total_count) ∧
    ((SearchResult.new items total_count page per_page).hasPreviousPage = true ↔ 0 < page) ∧
    (SearchResult.new ([] : List Unit) 25 2 10).hasNextPage = false ∧
    (SearchResult.new ([] : List Unit) 25 2 10).hasPreviousPage = true := by
  have hppz : (0 : Int) < per_page := by exact_mod_cast hpp
  have hchar := ceilDivInt_char total_count per_page hppz
  set c := ceilDivInt total_count (per_page : Int) with hc
  have hfit : c ≤ 2 ^ 32 - 1 := by
    by_contra hgt
    push_neg at hgt
    have h1 : (per_page : Int) * (2 ^ 32 - 1) ≤ (per_page : Int) * (c - 1) :=
      mul_le_mul_of_nonneg_left (by omega) (by omega)
    nlinarith [hchar.1, hsat]
  have htp := newTotalPages_eq total_count per_page h0 hpp hfit
  have hnext : (SearchResult.new items total_count page per_page).hasNextPage = true ↔
      page + 1 < (SearchResult.new items total_count page per_page).total_pages := by
    show decide ((page + 1) % 2 ^ 32 < newTotalPages total_count per_page) = true ↔ _
    rw [Nat.mod_eq_of_lt hpage]
    simp only [decide_eq_true_eq]
    exact Iff.rfl
  refine ⟨hnext, ?_, ?_, by decide, by decide⟩
  · rw [hnext]
    show page + 1 < newTotalPages total_count per_page ↔ _
    have hcast : page + 1 < newTotalPages total_count per_page ↔
        ((page : Int) + 1) < c := by
      constructor
      · intro hlt
        have : ((page + 1 : Nat) : Int) < ((newTotalPages total_count per_page : Nat) : Int) := by
          exact_mod_cast hlt
        rw [htp] at this
        push_cast at this
        exact this
      · intro hlt
        have : ((page + 1 : Nat) : Int) < ((newTotalPages total_count per_page : Nat) : Int) := by
          rw [htp]
          push_cast
          exact hlt
        exact_mod_cast this
    rw [hcast]
    constructor
    · intro hlt
      have hle : (page : Int) + 1 ≤ c - 1 := by omega
      have h1 : ((page : Int) + 1) * per_page ≤ (c - 1) * per_page :=
        mul_le_mul_of_nonneg_right hle (by omega)
      nlinarith [hchar.1]
    · intro hlt
      have h1 : ((page : Int) + 1) * per_page < c * per_page := by
        nlinarith [hchar.2]
      exact lt_of_mul_lt_mul_right h1 (by omega)
  · show decide (0 < page) = true ↔ 0 < page
    simp

/-! ## Concrete fixtures for witnesses and counterexamples -/

/-- A soft delete entity with two searchable and two filterable fields. -/
def exMeta : EntityMeta :=
  { table_name := "users", soft_delete_enabled := true,
    searchable_fields := ["name", "email"], filterable_fields := ["role", "status"] }

/-- An entity with soft delete disabled and no special fields. -/
def exMetaPlain : EntityMeta :=
  { table_name := "t", soft_delete_enabled := false,
    searchable_fields := [], filterable_fields := [] }

/-- Query "foo" with one unknown filter key among two known ones. -/
def exParams : SearchParams :=
  { query := some "foo",
    filters := [("role", "admin"), ("bogus", "x"), ("status", "active")],
    page := 0, per_page := 10, sort_by := none,
    sort_order := SortOrder.Asc, scope := RecordScope.Active }

/-- No query and only an unknown filter key. -/
def exParamsNoMatch : SearchParams :=
  { query := none, filters := [("bogus", "x")], page := 0, per_page := 10,
    sort_by := none, sort_order := SortOrder.Asc, scope := RecordScope.Active }

/-- Plain pagination parameters: page 3, 7 per page, descending. -/
def exParamsSort : SearchParams :=
  { query := none, filters := [], page := 3, per_page := 7, sort_by := none,
    sort_order := SortOrder.Desc, scope := RecordScope.All }

/-- page * per_page = 2 ^ 32: the u32 offset multiplication wraps to 0. -/
def exParamsOverflow : SearchParams :=
  { query := none, filters := [], page := 65536, per_page := 65536,
    sort_by := none, sort_order := SortOrder.Asc, scope := RecordScope.Active }

/-- C4 witness: searching "foo" on the example entity emits the ILIKE
disjunction over name and email with the shared placeholder $1 and
binds %foo% first. -/
theorem text_search_condition_witness :
    (searchBuild exMeta exParams).conditions =
      specScopeConds exMeta exParams ++
        ("(" ++ String.intercalate " OR "
          (exMeta.searchable_fields.map (fun f => f ++ " ILIKE $1")) ++ ")") ::
        specFilterConds exMeta 1 exParams.filters ∧
    (searchBuild exMeta exParams).bind_values =
      ("%" ++ "foo" ++ "%") :: specFilterBinds exMeta exParams.filters :=
  (text_search_condition exMeta exParams).1 "foo" rfl (by decide) (by decide)

/-- C5 witness: one unknown filter key and no query leave only the
scope condition. -/
theorem filter_conditions_membership_witness :
    (searchBuild exMeta exParamsNoMatch).conditions = specScopeConds exMeta exParamsNoMatch :=
  (filter_conditions_membership exMeta exParamsNoMatch).2.2 (by decide) rfl

/-- C7 witness: the amended pagination predicates at 25 items, page 2,
10 per page. -/
theorem pagination_predicates_amended_witness :
    ((SearchResult.new ([] : List Unit) 25 2 10).hasNextPage = true ↔
      2 + 1 < (SearchResult.new ([] : List Unit) 25 2 10).total_pages) ∧
    ((SearchResult.new ([] : List Unit) 25 2 10).hasNextPage = true ↔
      (((2 : Nat) : Int) + 1) * ((10 : Nat) : Int) < 25) ∧
    ((SearchResult.new ([] : List Unit) 25 2 10).hasPreviousPage = true ↔ 0 < 2) ∧
    (SearchResult.new ([] : List Unit) 25 2 10).hasNextPage = false ∧
    (SearchResult.new ([] : List Unit) 25 2 10).hasPreviousPage = true :=
  pagination_predicates_amended ([] : List Unit) 25 2 10 (by decide) (by decide)
    (by decide) (by decide) (by decide)

/-- C9 (amended): the main select ends with the ORDER BY / LIMIT /
OFFSET suffix, the sort field defaulting to "id" when sort_by is
absent, and the OFFSET value is the u32 product page * per_page modulo
2 ^ 32 — equal to the exact mathematical product exactly when that
product fits a u32 (above it, the Rust u32 multiplication wraps in a
release build and panics in a debug build). -/
theorem main_query_suffix_amended (m : EntityMeta) (p : SearchParams) :
    (∃ pre, searchMainQuery m p =
      pre ++ (" ORDER BY " ++ p.sort_by.getD "id" ++ " " ++ sortOrderSql p.sort_order ++
        " LIMIT " ++ toString p.per_page ++
        " OFFSET " ++ toString (p.page * p.per_page % 2 ^ 32))) ∧
    (p.page * p.per_page < 2 ^ 32 → p.page * p.per_page % 2 ^ 32 = p.page * p.per_page) ∧
    (p.sort_by = none → p.sort_by.getD "id" = "id") := by
  refine ⟨⟨"SELECT * FROM " ++ m.table_name ++ whereClause (searchBuild m p).conditions,
    ?_⟩, ?_, ?_⟩
  · unfold searchMainQuery
    simp [String.append_assoc]
  · intro h
    exact Nat.mod_eq_of_lt h
  · intro h
    rw [h]
    rfl

/-- C9 witness: page 3 at 7 per page gives OFFSET 21, sort field id. -/
theorem main_query_suffix_amended_witness :
    (∃ pre, searchMainQuery exMetaPlain exParamsSort =
      pre ++ (" ORDER BY " ++ exParamsSort.sort_by.getD "id" ++ " " ++
        sortOrderSql exParamsSort.sort_order ++
        " LIMIT " ++ toString exParamsSort.per_page ++
        " OFFSET " ++ toString (exParamsSort.page * exParamsSort.per_page % 2 ^ 32))) ∧
    exParamsSort.page * exParamsSort.per_page % 2 ^ 32 =
      exParamsSort.page * exParamsSort.per_page ∧
    exParamsSort.sort_by.getD "id" = "id" := by
  obtain ⟨h1, h2, h3⟩ := main_query_suffix_amended exMetaPlain exParamsSort
  exact ⟨h1, h2 (by decide), h3 rfl⟩

/-- C9 counterexample: at page 65536 and per_page 65536 the u32
multiplication wraps and the statement says OFFSET 0, not the exact
product 4294967296. -/
theorem main_query_suffix_cex :
    searchMainQuery exMetaPlain exParamsOverflow =
      "SELECT * FROM t ORDER BY id ASC LIMIT 65536 OFFSET 0" ∧
    (65536 * 65536 : Nat) ≠ 0 := by
  constructor
  · decide
  · decide

/-- C8: restore returns the configuration error exactly when soft
delete is disabled for the entity, and in that case no statement is
built or executed (the error is returned before any SQL exists); when
soft delete is enabled it issues the UPDATE that clears deleted_at and
refreshes updated_at with the id as its only bound value, and running
that statement returns the updated row, or none — with the table
unchanged — when no row carries the id. -/
theorem restore_configuration_guard (m : EntityMeta) (i : Int) :
    (m.soft_delete_enabled = false →
      restore m i = Except.error (RepositoryError.Configuration "Soft delete not enabled")) ∧
    (m.soft_delete_enabled = true →
      restore m i = Except.ok
        ("UPDATE " ++ m.table_name ++
          " SET deleted_at = NULL, updated_at = NOW() WHERE id = $1 RETURNING *", [i]) ∧
      (∀ now table, (∀ r ∈ table, r.id ≠ i) →
        runRestoreUpdate now table i = (table, none)) ∧
      (∀ now table r, r ∈ table → r.id = i →
        ∃ r2, (runRestoreUpdate now table i).2 = some r2 ∧
          r2.deleted_at = none ∧ r2.updated_at = now)) := by
  constructor
  · intro h
    simp [restore, h]
  · intro h
    refine ⟨by simp [restore, h], ?_, ?_⟩
    · intro now table hno
      unfold runRestoreUpdate
      have hmap : table.map
          (fun r => if r.id = i then { r with deleted_at := none, updated_at := now } else r) =
          table := by
        conv_rhs => rw [show table = table.map id from (List.map_id table).symm]
        refine List.map_congr_left ?_
        intro r hr
        rw [if_neg (hno r hr)]
        rfl
      have hfind : table.find? (fun r => r.id = i) = none := by
        rw [List.find?_eq_none]
        intro r hr
        simpa using hno r hr
      rw [hmap, hfind]
      rfl
    · intro now table r hr hid
      have hex : (table.find? (fun r => r.id = i)).isSome := by
        rw [List.find?_isSome]
        exact ⟨r, hr, by simpa using hid⟩
      obtain ⟨r0, hr0⟩ := Option.isSome_iff_exists.mp hex
      refine ⟨{ r0 with deleted_at := none, updated_at := now }, ?_, rfl, rfl⟩
      unfold runRestoreUpdate
      rw [hr0]
      rfl

/-- C8 witness: restore on the soft delete entity builds the UPDATE
for id 5, and running it on an empty table changes nothing and returns
none. -/
theorem restore_configuration_guard_witness :
    restore exMeta 5 = Except.ok
      ("UPDATE " ++ exMeta.table_name ++
        " SET deleted_at = NULL, updated_at = NOW() WHERE id = $1 RETURNING *", [5]) ∧
    runRestoreUpdate 9 [] 5 = ([], none) := by
  obtain ⟨-, h2⟩ := restore_configuration_guard exMeta 5
  obtain ⟨hok, hnone, -⟩ := h2 rfl
  exact ⟨hok, hnone 9 [] (by simp)⟩

/-- C10: the statement built by restore conditions only on id = $1 —
its text carries no deleted_at test — while the soft delete statement
carries the AND deleted_at IS NULL guard; consequently running restore
on a table updates and returns the row with the given id whether or
not it was soft-deleted, whereas the guarded soft delete statement
affects zero rows once the row is already deleted. -/
theorem restore_unguarded_by_deleted_at (m : EntityMeta) (hsd : m.soft_delete_enabled = true)
    (i : Int) (now : Nat) (r : Row) (hid : r.id = i) :
    restore m i = Except.ok
      ("UPDATE " ++ m.table_name ++
        " SET deleted_at = NULL, updated_at = NOW() WHERE id = $1 RETURNING *", [i]) ∧
    deleteQuery m = "UPDATE " ++ m.table_name ++
      " SET deleted_at = NOW(), updated_at = NOW() WHERE id = $1 AND deleted_at IS NULL" ∧
    (runRestoreUpdate now [r] i).2 =
      some { r with deleted_at := none, updated_at := now } ∧
    (r.deleted_at ≠ none → (runSoftDeleteUpdate now [r] i).2 = 0) := by
  refine ⟨by simp [restore, hsd], by simp [deleteQuery, hsd], ?_, ?_⟩
  · unfold runRestoreUpdate
    simp [List.find?, hid]
  · intro hdel
    unfold runSoftDeleteUpdate
    simp [List.filter, hid, hdel]

/-- C10 witness: a soft-deleted row (deleted_at = 3) with id 7 is
updated and returned by the restore statement, while the guarded soft
delete statement affects zero rows on it. -/
theorem restore_unguarded_by_deleted_at_witness :
    (runRestoreUpdate 42 [Row.mk 7 (some 3) 0 "x"] 7).2 = some (Row.mk 7 none 42 "x") ∧
    (runSoftDeleteUpdate 42 [Row.mk 7 (some 3) 0 "x"] 7).2 = 0 := by
  obtain ⟨-, -, h3, h4⟩ :=
    restore_unguarded_by_deleted_at exMeta rfl 7 42 (Row.mk 7 (some 3) 0 "x") rfl
  exact ⟨h3, h4 (by decide)⟩

end SqlxRepository
